import Mathlib

/-!
Verification of the Lovely-Logs logger (`src/index.ts`) against its
natural-language specification.  The TypeScript source is shallowly embedded:
JavaScript objects become association lists with in-place-update semantics,
machine numbers become `Int`, and the ambient clock (`Date.now()`,
`new Date().toISOString()`, the fixed-point rendering of elapsed seconds) is
passed in explicitly.  The rendering of non-Error objects by `inspectObject`
(a pure, total, string-valued function whose internals no claim depends on)
is carried as data on the embedded value.
-/

namespace LovelyLogs

/-- ASCII uppercase conversion of one character. -/
def asciiUpperChar (c : Char) : Char :=
  if 'a' ≤ c ∧ c ≤ 'z' then Char.ofNat (c.toNat - 32) else c

/-- ASCII lowercase conversion of one character. -/
def asciiLowerChar (c : Char) : Char :=
  if 'A' ≤ c ∧ c ≤ 'Z' then Char.ofNat (c.toNat + 32) else c

/-- Embedding of JavaScript `String.prototype.toUpperCase`.  The source only
applies it to the ASCII level-name strings, where the ASCII mapping is exact. -/
def jsToUpperCase (s : String) : String :=
  String.mk (s.data.map asciiUpperChar)

/-- Embedding of JavaScript `String.prototype.toLowerCase`, ASCII range. -/
def jsToLowerCase (s : String) : String :=
  String.mk (s.data.map asciiLowerChar)

/-- The seven log levels of `LogLevels` in `src/index.ts`. -/
inductive LogLevel where
  | debug
  | info
  | warn
  | error
  | success
  | group
  | groupCollapsed
deriving DecidableEq, Repr

/-- The string value each member of `LogLevels` maps to in the source. -/
def levelStr : LogLevel → String
  | .debug => "debug"
  | .info => "info"
  | .warn => "warn"
  | .error => "error"
  | .success => "success"
  | .group => "group"
  | .groupCollapsed => "groupCollapsed"

/-- `Object.values(LogLevels)` in source order. -/
def logLevelValues : List String :=
  ["debug", "info", "warn", "error", "success", "group", "groupCollapsed"]

/-- The `LogLevelPriority` table of the source, keyed by the uppercase names. -/
def logLevelPriorityTable : List (String × Int) :=
  [("DEBUG", 0), ("INFO", 1), ("WARN", 2), ("ERROR", 3), ("SUCCESS", 4)]

/-- Embeds `LogLevelPriority[level.toUpperCase()] ?? -1` from `shouldLog`. -/
def priorityOf (level : LogLevel) : Int :=
  (logLevelPriorityTable.lookup (jsToUpperCase (levelStr level))).getD (-1)

/-- Embeds `Logger.shouldLog` (src/index.ts:287-302): group headers always
pass, otherwise the numeric priorities are compared. -/
def shouldLog (minLogLevel level : LogLevel) : Bool :=
  if level = .group ∨ level = .groupCollapsed then
    true
  else
    priorityOf level ≥ priorityOf minLogLevel

/-- Priority map as the claim states it: declared priorities for
debug/info/warn/error/success, `-1` for any level without one. -/
def claimPriority : LogLevel → Int
  | .debug => 0
  | .info => 1
  | .warn => 2
  | .error => 3
  | .success => 4
  | .group => -1
  | .groupCollapsed => -1

/-- JSON-serializable values appearing in structured log records. -/
inductive SVal where
  | str (s : String)
  | num (n : Int)
  | bool (b : Bool)
  | null
  | undefined
  | arr (xs : List SVal)
  | obj (fields : List (String × SVal))

/-- A JavaScript `Error` value: the standard `name`, `message` and `stack`
slots plus the remaining own properties, each with its key, its
enumerability flag and its value, in `Object.getOwnPropertyNames` order. -/
structure JsError where
  name : String
  message : String
  stack : Option String
  ownProps : List (String × Bool × SVal)

/-- An argument passed to a logging call.  Non-Error values carry their
string rendering as data: `prim` a primitive with its `String(v)` rendering,
`obj` a non-Error object with its `inspectObject(v)` rendering; no claim
depends on the internals of those renderings. -/
inductive JsVal where
  | prim (render : String)
  | obj (render : String)
  | err (e : JsError)

/-- The `instanceof Error` test. -/
def isErrVal : JsVal → Bool
  | .err _ => true
  | _ => false

/-- The Error arguments of a call, in order. -/
def errsOf (messages : List JsVal) : List JsError :=
  messages.filterMap fun v => match v with | .err e => some e | _ => none

/-- The non-Error arguments of a call, in order. -/
def nonErrs (messages : List JsVal) : List JsVal :=
  messages.filter fun v => !isErrVal v

/-- One argument's contribution inside `formatMessages`: Errors yield an
empty string, objects their safe inspection, primitives their string form. -/
def formatOne : JsVal → String
  | .err _ => ""
  | .obj r => r
  | .prim s => s

/-- Embeds `Logger.formatMessages` (src/index.ts:268-281): map, drop empty
fragments, join with single spaces. -/
def formatMessages (messages : List JsVal) : String :=
  String.intercalate " " ((messages.map formatOne).filter fun s => s ≠ "")

/-- Property assignment `o[k] = v` on a JavaScript object: replace the value
in place when the key exists, otherwise append the new key at the end. -/
def objSet {κ α : Type} [DecidableEq κ] : List (κ × α) → κ → α → List (κ × α)
  | [], k, v => [(k, v)]
  | p :: o, k, v => if p.1 = k then (k, v) :: o else p :: objSet o k v

/-- Folding property assignments over a list of entries: the semantics of a
JavaScript object literal with spreads, and of `Object.assign`. -/
def buildObj {κ α : Type} [DecidableEq κ] (init entries : List (κ × α)) : List (κ × α) :=
  entries.foldl (fun o p => objSet o p.1 p.2) init

/-- The value of the last entry of `es` carrying key `k`, if any. -/
def lastVal? {κ α : Type} [DecidableEq κ] (es : List (κ × α)) (k : κ) : Option α :=
  (es.reverse.find? fun p => p.1 = k).map (·.2)

/-- A JavaScript `error.stack` slot as a serialized value (`undefined` when
the slot is absent). -/
def optStackVal : Option String → SVal
  | some s => .str s
  | none => .undefined

/-- Embeds `Logger.serializeError` (src/index.ts:215-230): fixed `name`,
`message`, `stack` entries, then every own property whose key is not one of
those three — `Object.getOwnPropertyNames` walks own properties whether or
not they are enumerable. -/
def serializeError (e : JsError) : List (String × SVal) :=
  buildObj
    [("name", .str e.name), ("message", .str e.message), ("stack", optStackVal e.stack)]
    ((e.ownProps.filter fun p => ¬(p.1 = "name" ∨ p.1 = "message" ∨ p.1 = "stack")).map
      fun p => (p.1, p.2.2))

/-- Error serialization as the claim words it: `name`, `message`, `stack`
plus every own ENUMERABLE property outside those three, and nothing else.
Stated for comparison with `serializeError`, which is taken from the source. -/
def specSerializeError (e : JsError) : List (String × SVal) :=
  buildObj
    [("name", .str e.name), ("message", .str e.message), ("stack", optStackVal e.stack)]
    ((e.ownProps.filter fun p =>
        p.2.1 = true ∧ ¬(p.1 = "name" ∨ p.1 = "message" ∨ p.1 = "stack")).map
      fun p => (p.1, p.2.2))

/-- JavaScript truthiness of a `string | undefined` slot. -/
def strTruthy : Option String → Bool
  | some s => s ≠ ""
  | none => false

/-- The four platforms of the `Platform` union type. -/
inductive Platform where
  | web
  | console
  | lambda
  | ecs
deriving DecidableEq, Repr

/-- The `defaultStyles` table of the source, per platform an association
from level (plus the auxiliary `time` and `title` keys) to display token. -/
def defaultStyles : Platform → List (String × String)
  | .web =>
    [("debug", "color: #888; font-style: italic;"),
     ("info", "color: #0066cc; font-weight: 500;"),
     ("success", "color: #28a745; font-weight: 500;"),
     ("warn", "color: #ffa500; font-weight: 500;"),
     ("error", "color: #dc3545; font-weight: bold;"),
     ("time", "color: #6c757d;"),
     ("title", "font-size: 1.5rem; font-weight: bold;"),
     ("group", "color: #0066cc; font-weight: bold;"),
     ("groupCollapsed", "color: #0066cc; font-weight: 500;")]
  | .console =>
    [("debug", "\x1b[90m◯\x1b[0m"),
     ("info", "\x1b[36mℹ\x1b[0m"),
     ("warn", "\x1b[33m⚠\x1b[0m"),
     ("error", "\x1b[31m✖\x1b[0m"),
     ("success", "\x1b[32m✔\x1b[0m"),
     ("time", "\x1b[33m⏱\x1b[0m"),
     ("title", "\x1b[1m"),
     ("group", "\x1b[34m▼\x1b[0m"),
     ("groupCollapsed", "\x1b[34m▶\x1b[0m")]
  | .lambda =>
    [("debug", "[DEBUG]"),
     ("info", "[INFO]"),
     ("warn", "[WARN]"),
     ("error", "[ERROR]"),
     ("success", "[SUCCESS]"),
     ("time", "[TIME]"),
     ("title", "[TITLE]"),
     ("group", "[GROUP]"),
     ("groupCollapsed", "[GROUP]")]
  | .ecs =>
    [("debug", "DEBUG"),
     ("info", "INFO"),
     ("warn", "WARN"),
     ("error", "ERROR"),
     ("success", "INFO"),
     ("time", "INFO"),
     ("title", "INFO"),
     ("group", "INFO"),
     ("groupCollapsed", "INFO")]

/-- All seven levels, in `Object.values(LogLevels)` order. -/
def allLevels : List LogLevel :=
  [.debug, .info, .warn, .error, .success, .group, .groupCollapsed]

/-- The level whose string name is `s`, if any. -/
def parseLevel (s : String) : Option LogLevel :=
  allLevels.find? fun l => levelStr l = s

/-- Embeds the minimum-level computation of the constructor
(src/index.ts:169-173): the `LOG_LEVEL` environment value is lowercased and
must equal one of the `LogLevels` strings exactly; an explicit
`minLogLevel` option takes precedence; everything else defaults to debug. -/
def computeMinLogLevel (optMin : Option LogLevel) (envLogLevel : Option String) : LogLevel :=
  let lowered := envLogLevel.map jsToLowerCase
  let isValid := match lowered with
    | some s => logLevelValues.contains s
    | none => false
  match optMin with
  | some m => m
  | none => if isValid then (lowered.bind parseLevel).getD .debug else .debug

/-- The argument accepted by the `prefix` option and by `setPrefix`: either
one string for all levels or a per-level map. -/
inductive PrefixArg where
  | str (s : String)
  | levelMap (m : List (LogLevel × String))

/-- The mutable state of a `Logger` instance.  The elapsed-time origin
`startTime` is not stored: the rendering of elapsed seconds is supplied as
ambient input where output is produced. -/
structure LoggerState where
  platform : Platform
  timeStampEnabled : Bool
  styles : Platform → List (String × String)
  structured : Bool
  serviceName : Option String
  correlationId : Option String
  prefixMap : List (LogLevel × String)
  minLogLevel : LogLevel
  groupLevel : Int
  context : List (String × SVal)
  timers : List (String × Int)

/-- The recognized construction options (`LoggerOptions`); the style
override is a partial map at the platform level, matching the runtime shape
of the option object. -/
structure LoggerOptions where
  platform : Option Platform := none
  timestampEnabled : Option Bool := none
  customStyles : Option (Platform → Option (List (String × String))) := none
  prefixOpt : Option PrefixArg := none
  minLogLevel : Option LogLevel := none
  structured : Option Bool := none
  serviceName : Option String := none
  correlationId : Option String := none
  context : Option (List (String × SVal)) := none

/-- Embeds the style-table construction of the constructor
(src/index.ts:163-166): `{ ...defaultStyles, ...(options.customStyles || {}) }`
spreads at the platform level, so a platform mentioned in the override
replaces the whole per-platform table. -/
def mkStyles (custom : Option (Platform → Option (List (String × String)))) :
    Platform → List (String × String) :=
  fun p => ((custom.getD fun _ => none) p).getD (defaultStyles p)

/-- Embeds the `prefix` normalization of the constructor
(src/index.ts:175-186): a string option is copied onto all seven levels, a
map option is used as given, no option yields the empty map. -/
def initPrefixMap : Option PrefixArg → List (LogLevel × String)
  | some (.str s) => allLevels.map fun l => (l, s)
  | some (.levelMap m) => m
  | none => []

/-- Embeds the `Logger` constructor (src/index.ts:155-187).  The detected
platform and the `LOG_LEVEL` environment value are ambient inputs. -/
def mkLogger (opts : LoggerOptions) (detected : Platform) (envLogLevel : Option String) :
    LoggerState :=
  let platform := opts.platform.getD detected
  { platform := platform
    timeStampEnabled := opts.timestampEnabled.getD true
    styles := mkStyles opts.customStyles
    structured := opts.structured.getD (platform == .ecs)
    serviceName := opts.serviceName
    correlationId := opts.correlationId
    prefixMap := initPrefixMap opts.prefixOpt
    minLogLevel := computeMinLogLevel opts.minLogLevel envLogLevel
    groupLevel := 0
    context := opts.context.getD []
    timers := [] }

/-- The ambient clock at one public call: the ISO rendering of the current
instant, the fixed-point rendering of elapsed seconds (floating-point
formatting is outside the embedding), and `Date.now()` in milliseconds. -/
structure Ambient where
  isoNow : String
  elapsedStr : String
  nowMs : Int

/-- One call to a console primitive, as emitted by the dispatcher:
`log` a plain `console.log` line, `logStyled` the web two-argument styled
form (style token carried as looked up, possibly absent), `logJson` a
`console.log(JSON.stringify(record))`, `errObj` a `console.error(error)`,
`errPrefixed` a `console.error(decoration, error)`, `errLine` a
`console.error(decoration)`. -/
inductive OutCall where
  | log (line : String)
  | logStyled (line : String) (style : Option String)
  | logJson (record : List (String × SVal))
  | errObj (e : JsError)
  | errPrefixed (deco : String) (e : JsError)
  | errLine (line : String)

/-- The fixed and conditionally-present entries of the structured object
literal, before the context spread (src/index.ts:246-253). -/
def structFixed (st : LoggerState) (isoNow : String) (level : LogLevel)
    (messages : List JsVal) : List (String × SVal) :=
  [("timestamp", SVal.str isoNow),
   ("level", SVal.str (jsToUpperCase (levelStr level))),
   ("message", SVal.str
     (if (nonErrs messages).length > 0 then formatMessages (nonErrs messages) else ""))]
    ++ (if strTruthy st.serviceName then
          [("service", SVal.str (st.serviceName.getD ""))] else [])
    ++ (if strTruthy st.correlationId then
          [("correlationId", SVal.str (st.correlationId.getD ""))] else [])

/-- Embeds `Logger.createStructuredLog` (src/index.ts:232-266): split off
the Error arguments, build the object literal with its spreads, then attach
the serialized errors and the positive group depth by assignment. -/
def createStructuredLog (st : LoggerState) (isoNow : String) (level : LogLevel)
    (messages : List JsVal) : List (String × SVal) :=
  let errors := errsOf messages
  let logEntry := buildObj [] (structFixed st isoNow level messages ++ st.context)
  let withErrors :=
    if errors.length > 0 then
      objSet logEntry "errors" (SVal.arr (errors.map fun e => SVal.obj (serializeError e)))
    else logEntry
  if st.groupLevel > 0 then objSet withErrors "group" (SVal.num st.groupLevel) else withErrors

/-- Embeds `Logger.getPrefix` (src/index.ts:283-285), truthiness included. -/
def prefixFor (st : LoggerState) (level : LogLevel) : String :=
  match st.prefixMap.lookup level with
  | some s => if s ≠ "" then s ++ " " else ""
  | none => ""

/-- String repetition, as in JavaScript `s.repeat(n)`. -/
def strRepeat (s : String) : Nat → String
  | 0 => ""
  | n + 1 => s ++ strRepeat s n

/-- A style token interpolated into a template literal: an absent entry
interpolates as the text `undefined`. -/
def styleText (st : LoggerState) (p : Platform) (level : LogLevel) : String :=
  ((st.styles p).lookup (levelStr level)).getD "undefined"

/-- Whether the structured branch of `log` is taken:
`this.structured || this.platform === "ecs"` (src/index.ts:310). -/
def structuredActive (st : LoggerState) : Bool :=
  st.structured || st.platform == .ecs

/-- Embeds `Logger.log` (src/index.ts:304-408): level filter, structured
branch, then the per-platform switch.  `String.repeat` of the indentation
uses the group depth, non-negative in every reachable state; the switch has
no arm for `ecs`, which the structured branch has already captured, so that
case falls through with no output. -/
def logDispatch (st : LoggerState) (amb : Ambient) (level : LogLevel)
    (messages : List JsVal) : List OutCall :=
  if ¬ shouldLog st.minLogLevel level then []
  else if structuredActive st then
    [OutCall.logJson (createStructuredLog st amb.isoNow level messages)]
  else
    let timestamp := if st.timeStampEnabled then "[" ++ amb.elapsedStr ++ "s]" else ""
    let pfx := prefixFor st level
    let indent := strRepeat "  " st.groupLevel.toNat
    match st.platform with
    | .web =>
      if level = .error ∧ messages.any isErrVal then
        let nonErrorMessages := nonErrs messages
        let errors := errsOf messages
        (if nonErrorMessages.length > 0 then
          [OutCall.logStyled ("%c" ++ indent ++ pfx ++ formatMessages nonErrorMessages)
            ((st.styles .web).lookup (levelStr level))]
         else [])
          ++ errors.map OutCall.errObj
      else
        [OutCall.logStyled ("%c" ++ indent ++ pfx ++ formatMessages messages)
          ((st.styles .web).lookup (levelStr level))]
    | .console =>
      let tsDeco := if timestamp ≠ "" then "\x1b[34m" ++ timestamp ++ "\x1b[0m " else ""
      if level = .error ∧ messages.any isErrVal then
        let nonErrorMessages := nonErrs messages
        let errors := errsOf messages
        (if nonErrorMessages.length > 0 then
          [OutCall.log (tsDeco ++ styleText st .console level ++ " " ++ indent ++ pfx
            ++ formatMessages nonErrorMessages)]
         else [])
          ++ errors.map fun e =>
              OutCall.errPrefixed (tsDeco ++ styleText st .console level ++ " " ++ indent ++ pfx) e
      else
        [OutCall.log (tsDeco ++ styleText st .console level ++ " " ++ indent ++ pfx
          ++ formatMessages messages)]
    | .lambda =>
      if level = .error ∧ messages.any isErrVal then
        let nonErrorMessages := nonErrs messages
        let errors := errsOf messages
        (if nonErrorMessages.length > 0 then
          [OutCall.log (timestamp ++ " " ++ styleText st .lambda level ++ " " ++ indent ++ pfx
            ++ formatMessages nonErrorMessages)]
         else [])
          ++ errors.flatMap fun e =>
              [OutCall.errLine (timestamp ++ " " ++ styleText st .lambda level ++ " " ++ indent
                ++ pfx),
               OutCall.errObj e]
      else
        [OutCall.log (timestamp ++ " " ++ styleText st .lambda level ++ " " ++ indent ++ pfx
          ++ formatMessages messages)]
    | .ecs => []

/-- The state-touching public operations of the facade (src/index.ts:410-523).
The pure getters (`getMinLogLevel`, `getCorrelationId`, `getContext`) read
state without changing it and need no transition of their own. -/
inductive LogOp where
  | debug (messages : List JsVal)
  | info (messages : List JsVal)
  | warn (messages : List JsVal)
  | error (messages : List JsVal)
  | success (messages : List JsVal)
  | group (messages : List JsVal)
  | groupCollapsed (messages : List JsVal)
  | groupEnd
  | setPrefixOp (arg : PrefixArg)
  | setMinLogLevel (level : LogLevel)
  | setCorrelationId (id : String)
  | setContext (ctx : List (String × SVal))
  | addContext (key : String) (value : SVal)
  | removeContext (key : String)
  | clearContext
  | time (label : String)
  | timeEnd (label : String)
  | timeLog (label : String) (messages : List JsVal)

/-- Embeds `Logger.setPrefix` (src/index.ts:446-462): both forms are merged
into the existing per-level map with `Object.assign`. -/
def applyPrefixArg (pm : List (LogLevel × String)) : PrefixArg → List (LogLevel × String)
  | .str s => buildObj pm (allLevels.map fun l => (l, s))
  | .levelMap m => buildObj pm m

/-- The warning text emitted by `timeEnd`/`timeLog` on a missing timer. -/
def timerMissingMsg (label : String) : String :=
  "Timer '" ++ label ++ "' does not exist"

/-- The info line emitted by `timeEnd`/`timeLog` on a hit. -/
def timerHitMsg (label : String) (duration : Int) : String :=
  label ++ ": " ++ toString duration ++ "ms"

/-- One public operation as a state transition with its emitted output.
Each arm embeds the corresponding method of `Logger`; `timeEnd` and
`timeLog` test the stored start time for JavaScript truthiness
(`if (startTime)`), so a stored `0` takes the missing-timer branch. -/
def step (st : LoggerState) (amb : Ambient) : LogOp → LoggerState × List OutCall
  | .debug messages => (st, logDispatch st amb .debug messages)
  | .info messages => (st, logDispatch st amb .info messages)
  | .warn messages => (st, logDispatch st amb .warn messages)
  | .error messages => (st, logDispatch st amb .error messages)
  | .success messages => (st, logDispatch st amb .success messages)
  | .group messages =>
    ({ st with groupLevel := st.groupLevel + 1 }, logDispatch st amb .group messages)
  | .groupCollapsed messages =>
    ({ st with groupLevel := st.groupLevel + 1 }, logDispatch st amb .groupCollapsed messages)
  | .groupEnd =>
    (if st.groupLevel > 0 then { st with groupLevel := st.groupLevel - 1 } else st, [])
  | .setPrefixOp arg => ({ st with prefixMap := applyPrefixArg st.prefixMap arg }, [])
  | .setMinLogLevel level => ({ st with minLogLevel := level }, [])
  | .setCorrelationId id => ({ st with correlationId := some id }, [])
  | .setContext ctx => ({ st with context := ctx }, [])
  | .addContext key value => ({ st with context := objSet st.context key value }, [])
  | .removeContext key => ({ st with context := st.context.filter fun p => p.1 ≠ key }, [])
  | .clearContext => ({ st with context := [] }, [])
  | .time label => ({ st with timers := objSet st.timers label amb.nowMs }, [])
  | .timeEnd label =>
    match st.timers.lookup label with
    | some startTime =>
      if startTime ≠ 0 then
        ({ st with timers := st.timers.filter fun p => p.1 ≠ label },
         logDispatch st amb .info [.prim (timerHitMsg label (amb.nowMs - startTime))])
      else
        (st, logDispatch st amb .warn [.prim (timerMissingMsg label)])
    | none => (st, logDispatch st amb .warn [.prim (timerMissingMsg label)])
  | .timeLog label messages =>
    match st.timers.lookup label with
    | some startTime =>
      if startTime ≠ 0 then
        (st, logDispatch st amb .info (.prim (timerHitMsg label (amb.nowMs - startTime)) :: messages))
      else
        (st, logDispatch st amb .warn [.prim (timerMissingMsg label)])
    | none => (st, logDispatch st amb .warn [.prim (timerMissingMsg label)])

/-- Running a sequence of public operations, each under its own ambient
clock, from a starting state. -/
def run (st : LoggerState) : List (Ambient × LogOp) → LoggerState
  | [] => st
  | p :: ops => run (step st p.1 p.2).1 ops

/-- Looking a key up after one property assignment. -/
theorem objSet_lookup {κ α : Type} [DecidableEq κ] (o : List (κ × α)) (a k : κ) (v : α) :
    (objSet o a v).lookup k = if k = a then some v else o.lookup k := by
  induction o with
  | nil =>
    by_cases hk : k = a
    · simp [objSet, List.lookup, hk]
    · simp [objSet, List.lookup, hk, beq_eq_false_iff_ne.mpr hk]
  | cons p o ih =>
    by_cases hp : p.1 = a
    · by_cases hk : k = a
      · simp [objSet, hp, List.lookup, hk]
      · have hk1 : ¬ k = p.1 := fun h => hk (h.trans hp)
        simp [objSet, hp, List.lookup, hk, beq_eq_false_iff_ne.mpr hk,
          beq_eq_false_iff_ne.mpr hk1]
    · by_cases hk : k = p.1
      · have hka : ¬ k = a := fun h => hp (hk.symm.trans h)
        simp [objSet, hp, List.lookup, hk, hka]
      · simp [objSet, hp, List.lookup, beq_eq_false_iff_ne.mpr hk, ih]

/-- The last binding of a key in a concatenation. -/
theorem lastVal?_append {κ α : Type} [DecidableEq κ] (A B : List (κ × α)) (k : κ) :
    lastVal? (A ++ B) k = (lastVal? B k).or (lastVal? A k) := by
  simp only [lastVal?, List.reverse_append, List.find?_append]
  cases B.reverse.find? fun p => p.1 = k <;> simp [Option.or]

/-- A key bound nowhere in a list has no last binding. -/
theorem lastVal?_eq_none {κ α : Type} [DecidableEq κ] (es : List (κ × α)) (k : κ)
    (h : ∀ p ∈ es, p.1 ≠ k) : lastVal? es k = none := by
  have hfind : es.reverse.find? (fun p => p.1 = k) = none :=
    List.find?_eq_none.mpr fun q hq => by
      simpa using h q (List.mem_reverse.mp hq)
  simp [lastVal?, hfind]

/-- The last binding of a key in a one-entry list. -/
theorem lastVal?_single {κ α : Type} [DecidableEq κ] (p : κ × α) (k : κ) :
    lastVal? [p] k = if k = p.1 then some p.2 else none := by
  by_cases hk : k = p.1
  · simp [lastVal?, List.find?, hk]
  · simp [lastVal?, List.find?, hk,
      decide_eq_false (show ¬ p.1 = k from fun h => hk h.symm)]

/-- Looking a key up after folding property assignments over entries. -/
theorem buildObj_lookup {κ α : Type} [DecidableEq κ] (es o : List (κ × α)) (k : κ) :
    (buildObj o es).lookup k = (lastVal? es k).or (o.lookup k) := by
  induction es generalizing o with
  | nil => simp [buildObj, lastVal?, Option.or]
  | cons p es ih =>
    have hcons : buildObj o (p :: es) = buildObj (objSet o p.1 p.2) es := by
      simp [buildObj]
    have hsplit : lastVal? (p :: es) k = (lastVal? es k).or (lastVal? [p] k) := by
      simpa using lastVal?_append [p] es k
    rw [hcons, ih, hsplit, objSet_lookup, lastVal?_single]
    cases hes : lastVal? es k with
    | some v => simp [Option.or]
    | none => by_cases hk : k = p.1 <;> simp [Option.or, hk]

/-- A lookup misses exactly when no entry carries the key. -/
theorem lookup_eq_none_iff {κ α : Type} [DecidableEq κ] (es : List (κ × α)) (k : κ) :
    es.lookup k = none ↔ ∀ p ∈ es, p.1 ≠ k := by
  induction es with
  | nil => simp [List.lookup]
  | cons p es ih =>
    by_cases hk : k = p.1
    · simp [List.lookup, hk]
    · rw [show List.lookup k (p :: es) = es.lookup k by
        simp [List.lookup, beq_eq_false_iff_ne.mpr hk]]
      rw [ih]
      constructor
      · intro h q hq
        rcases List.mem_cons.mp hq with hq | hq
        · exact hq ▸ fun h' => hk h'.symm
        · exact h q hq
      · intro h q hq
        exact h q (List.mem_cons_of_mem p hq)

/-- With pairwise-distinct keys, the first binding of a key is also its
last one. -/
theorem lastVal?_of_nodup {κ α : Type} [DecidableEq κ] (es : List (κ × α)) (k : κ) (v : α)
    (hnd : (es.map Prod.fst).Nodup) (hv : es.lookup k = some v) :
    lastVal? es k = some v := by
  induction es with
  | nil => simp [List.lookup] at hv
  | cons p es ih =>
    have hsplit : lastVal? (p :: es) k = (lastVal? es k).or (lastVal? [p] k) := by
      simpa using lastVal?_append [p] es k
    rw [List.map_cons] at hnd
    have hndc := List.nodup_cons.mp hnd
    by_cases hk : k = p.1
    · have hvv : p.2 = v := by simpa [List.lookup, hk] using hv
      have hnone : lastVal? es k = none := by
        apply lastVal?_eq_none
        intro q hq heq
        exact hndc.1 (by rw [← heq.trans hk]; exact List.mem_map_of_mem Prod.fst hq)
      rw [hsplit, hnone, lastVal?_single]
      simp [Option.or, hk, hvv]
    · have hv' : es.lookup k = some v := by
        simpa [List.lookup, beq_eq_false_iff_ne.mpr hk] using hv
      rw [hsplit, ih hndc.2 hv']
      simp [Option.or]

/-- C1: `shouldLog` returns true for group/groupCollapsed, and otherwise
exactly when the numeric priority of the level is at least that of the
minimum level, levels without a declared priority mapping to -1. -/
theorem shouldLog_matches_claimed_priorities :
    ∀ minLevel level : LogLevel,
      shouldLog minLevel level =
        (if level = .group ∨ level = .groupCollapsed then true
         else decide (claimPriority level ≥ claimPriority minLevel)) := by
  intro minLevel level
  cases minLevel <;> cases level <;> decide

/-- A logger in its default console configuration, used as a concrete
evaluation point: all options absent, detected platform `console`, no
`LOG_LEVEL` in the environment. -/
def baseState : LoggerState :=
  mkLogger {} .console none

/-- A concrete ambient clock for evaluation points. -/
def amb0 : Ambient :=
  { isoNow := "2026-01-01T00:00:00.000Z", elapsedStr := "0.000", nowMs := 1000 }

/-- C4: the constructor merges `customStyles` by spreading at the platform
level, so overriding only the web debug style (the shape the README
documents) deletes every other web level entry; the defaults did carry
them.  This exhibits the failing input of the claim that un-overridden
levels are never deleted. -/
theorem mkStyles_drops_unoverridden_levels :
    (mkStyles (some fun p => if p = .web then some [("debug", "color: red")] else none)
        .web).lookup "info" = none
    ∧ (defaultStyles .web).lookup "info" = some "color: #0066cc; font-weight: 500;"
    ∧ (mkStyles none .web).lookup "info" = some "color: #0066cc; font-weight: 500;" :=
  ⟨rfl, rfl, rfl⟩

/-- C7 counterexample: the name `groupCollapsed` is a recognized level name
and `LOG_LEVEL=groupCollapsed` matches it case-insensitively, yet the
constructor lowercases the variable before the exact comparison, so the
minimum level falls back to debug instead of groupCollapsed. -/
theorem computeMinLogLevel_groupCollapsed_unreachable :
    jsToLowerCase "groupCollapsed" = jsToLowerCase (levelStr .groupCollapsed)
    ∧ computeMinLogLevel none (some "groupCollapsed") = .debug
    ∧ LogLevel.debug ≠ .groupCollapsed := by
  refine ⟨rfl, by decide, by decide⟩

/-- C7 (amended): an explicit `minLogLevel` option always wins; otherwise
the minimum level is the level whose name the LOWERCASED `LOG_LEVEL` equals
exactly — so a name containing uppercase (groupCollapsed) can never be
selected — and in every other case (unset or unmatched) it is debug. -/
theorem computeMinLogLevel_spec :
    (∀ (m : LogLevel) (env : Option String), computeMinLogLevel (some m) env = m)
    ∧ (∀ (s : String) (l : LogLevel), jsToLowerCase s = levelStr l →
        computeMinLogLevel none (some s) = l)
    ∧ (∀ s : String, (∀ l : LogLevel, jsToLowerCase s ≠ levelStr l) →
        computeMinLogLevel none (some s) = .debug)
    ∧ computeMinLogLevel none none = .debug := by
  refine ⟨fun m env => rfl, ?_, ?_, rfl⟩
  · intro s l h
    have hmap : (some s).map jsToLowerCase = some (levelStr l) := by
      rw [Option.map_some', h]
    cases l <;> simp [computeMinLogLevel, hmap] <;> decide
  · intro s h
    have hnm : jsToLowerCase s ∉ logLevelValues := by
      intro hmem
      simp only [logLevelValues, List.mem_cons, List.mem_singleton] at hmem
      rcases hmem with h1 | h1 | h1 | h1 | h1 | h1 | h1 | h1
      · exact h .debug h1
      · exact h .info h1
      · exact h .warn h1
      · exact h .error h1
      · exact h .success h1
      · exact h .group h1
      · exact h .groupCollapsed h1
      · simp at h1
    simp [computeMinLogLevel, hnm]

/-- C7 witness: evaluating the amended statement at `LOG_LEVEL=INFO`,
with and without an explicit option. -/
theorem computeMinLogLevel_spec_witness :
    jsToLowerCase "INFO" = levelStr .info
    ∧ computeMinLogLevel none (some "INFO") = .info
    ∧ computeMinLogLevel (some .error) (some "INFO") = .error :=
  ⟨rfl, computeMinLogLevel_spec.2.1 "INFO" .info rfl,
    computeMinLogLevel_spec.1 .error (some "INFO")⟩

/-- Whether an operation is one of the three that may move the group
depth counter. -/
def touchesGroupLevel : LogOp → Bool
  | .group _ => true
  | .groupCollapsed _ => true
  | .groupEnd => true
  | _ => false

/-- Every single transition preserves non-negativity of the group depth. -/
theorem step_groupLevel_nonneg (st : LoggerState) (amb : Ambient) (op : LogOp)
    (h : 0 ≤ st.groupLevel) : 0 ≤ (step st amb op).1.groupLevel := by
  cases op with
  | groupEnd =>
    simp only [step]
    split
    · simp; omega
    · simpa using h
  | timeEnd label =>
    simp only [step]
    cases st.timers.lookup label with
    | some t =>
      by_cases ht : t ≠ 0 <;> simp [ht, h]
    | none => simpa using h
  | timeLog label messages =>
    simp only [step]
    cases st.timers.lookup label with
    | some t =>
      by_cases ht : t ≠ 0 <;> simp [ht, h]
    | none => simpa using h
  | group messages => simp [step]; omega
  | groupCollapsed messages => simp [step]; omega
  | _ => simpa [step] using h

/-- Transitions other than group/groupCollapsed/groupEnd leave the group
depth untouched. -/
theorem step_groupLevel_frame (st : LoggerState) (amb : Ambient) (op : LogOp)
    (h : touchesGroupLevel op = false) : (step st amb op).1.groupLevel = st.groupLevel := by
  cases op with
  | group messages => simp [touchesGroupLevel] at h
  | groupCollapsed messages => simp [touchesGroupLevel] at h
  | groupEnd => simp [touchesGroupLevel] at h
  | timeEnd label =>
    simp only [step]
    cases st.timers.lookup label with
    | some t => by_cases ht : t ≠ 0 <;> simp [ht]
    | none => simp
  | timeLog label messages =>
    simp only [step]
    cases st.timers.lookup label with
    | some t => by_cases ht : t ≠ 0 <;> simp [ht]
    | none => simp
  | _ => simp [step]

/-- C6: the group depth starts at 0 and stays non-negative along every
sequence of public operations; group/groupCollapsed increment it by one,
groupEnd decrements it when positive and leaves 0 in place, and no other
operation changes it. -/
theorem groupLevel_invariant :
    (∀ (opts : LoggerOptions) (det : Platform) (env : Option String),
      (mkLogger opts det env).groupLevel = 0)
    ∧ (∀ st : LoggerState, 0 ≤ st.groupLevel →
        ∀ ops : List (Ambient × LogOp), 0 ≤ (run st ops).groupLevel)
    ∧ (∀ (st : LoggerState) (amb : Ambient) (messages : List JsVal),
        (step st amb (.group messages)).1.groupLevel = st.groupLevel + 1)
    ∧ (∀ (st : LoggerState) (amb : Ambient) (messages : List JsVal),
        (step st amb (.groupCollapsed messages)).1.groupLevel = st.groupLevel + 1)
    ∧ (∀ (st : LoggerState) (amb : Ambient), 0 < st.groupLevel →
        (step st amb .groupEnd).1.groupLevel = st.groupLevel - 1)
    ∧ (∀ (st : LoggerState) (amb : Ambient), st.groupLevel = 0 →
        (step st amb .groupEnd).1.groupLevel = 0)
    ∧ (∀ (st : LoggerState) (amb : Ambient) (op : LogOp), touchesGroupLevel op = false →
        (step st amb op).1.groupLevel = st.groupLevel) := by
  refine ⟨fun opts det env => rfl, ?_, fun st amb m => rfl, fun st amb m => rfl,
    ?_, ?_, step_groupLevel_frame⟩
  · intro st h ops
    induction ops generalizing st with
    | nil => simpa [run] using h
    | cons p ops ih =>
      exact ih _ (step_groupLevel_nonneg st p.1 p.2 h)
  · intro st amb h
    simp [step, h]
  · intro st amb h
    simp [step, h]

/-- C6 witness: the invariant evaluated on the default logger and a short
operation sequence that tries to underflow the counter. -/
theorem groupLevel_invariant_witness :
    (0 : Int) ≤ baseState.groupLevel
    ∧ 0 ≤ (run baseState [(amb0, .groupEnd), (amb0, .group []), (amb0, .groupEnd)]).groupLevel
    ∧ (step baseState amb0 (.group [])).1.groupLevel = baseState.groupLevel + 1
    ∧ baseState.groupLevel = 0
    ∧ (step baseState amb0 .groupEnd).1.groupLevel = 0 :=
  ⟨by decide, groupLevel_invariant.2.1 baseState (by decide) _,
    groupLevel_invariant.2.2.1 baseState amb0 [],
    rfl,
    groupLevel_invariant.2.2.2.2.2.1 baseState amb0 rfl⟩

/-- The last binding of `p :: es` splits into the tail and the head. -/
theorem lastVal?_cons {κ α : Type} [DecidableEq κ] (p : κ × α) (es : List (κ × α)) (k : κ) :
    lastVal? (p :: es) k = (lastVal? es k).or (if k = p.1 then some p.2 else none) := by
  simpa [lastVal?_single] using lastVal?_append [p] es k

/-- The five possible keys of the fixed part of the structured literal. -/
theorem structFixed_keys (st : LoggerState) (iso : String) (level : LogLevel)
    (messages : List JsVal) :
    ∀ p ∈ structFixed st iso level messages,
      p.1 = "timestamp" ∨ p.1 = "level" ∨ p.1 = "message" ∨ p.1 = "service"
        ∨ p.1 = "correlationId" := by
  intro p hp
  simp only [structFixed, List.mem_append] at hp
  rcases hp with (h3 | h4) | h5
  · simp only [List.mem_cons, List.not_mem_nil, or_false] at h3
    rcases h3 with rfl | rfl | rfl <;> simp
  · split at h4
    · simp only [List.mem_singleton] at h4
      subst h4
      simp
    · simp at h4
  · split at h5
    · simp only [List.mem_singleton] at h5
      subst h5
      simp
    · simp at h5

/-- Computed last bindings of the fixed part of the structured literal,
one conjunct per possible key, plus the miss case. -/
theorem lastVal?_structFixed (st : LoggerState) (iso : String) (level : LogLevel)
    (messages : List JsVal) :
    lastVal? (structFixed st iso level messages) "timestamp" = some (.str iso)
    ∧ lastVal? (structFixed st iso level messages) "level"
        = some (.str (jsToUpperCase (levelStr level)))
    ∧ lastVal? (structFixed st iso level messages) "message"
        = some (.str (if (nonErrs messages).length > 0 then formatMessages (nonErrs messages)
            else ""))
    ∧ lastVal? (structFixed st iso level messages) "service"
        = (if strTruthy st.serviceName then some (.str (st.serviceName.getD "")) else none)
    ∧ lastVal? (structFixed st iso level messages) "correlationId"
        = (if strTruthy st.correlationId then some (.str (st.correlationId.getD "")) else none)
    := by
  by_cases hs : strTruthy st.serviceName <;> by_cases hc : strTruthy st.correlationId <;>
    refine ⟨?_, ?_, ?_, ?_, ?_⟩ <;>
    simp [structFixed, hs, hc, lastVal?_append, lastVal?_cons, lastVal?_single, lastVal?,
      Option.or]

/-- A key other than the five fixed ones misses the fixed part. -/
theorem lastVal?_structFixed_none (st : LoggerState) (iso : String) (level : LogLevel)
    (messages : List JsVal) (k : String)
    (h1 : k ≠ "timestamp") (h2 : k ≠ "level") (h3 : k ≠ "message") (h4 : k ≠ "service")
    (h5 : k ≠ "correlationId") :
    lastVal? (structFixed st iso level messages) k = none := by
  apply lastVal?_eq_none
  intro p hp hk
  rcases structFixed_keys st iso level messages p hp with h | h | h | h | h <;>
    rw [h] at hk
  · exact h1 hk.symm
  · exact h2 hk.symm
  · exact h3 hk.symm
  · exact h4 hk.symm
  · exact h5 hk.symm

/-- Master lookup computation for the assembled structured record: the
`group` assignment wins when the depth is positive, then the `errors`
assignment when Errors were passed, then the context spread, then the
fixed entries. -/
theorem createStructuredLog_lookup (st : LoggerState) (iso : String) (level : LogLevel)
    (messages : List JsVal) (k : String) :
    (createStructuredLog st iso level messages).lookup k =
      if k = "group" ∧ 0 < st.groupLevel then some (.num st.groupLevel)
      else if k = "errors" ∧ 0 < (errsOf messages).length then
        some (.arr ((errsOf messages).map fun e => .obj (serializeError e)))
      else (lastVal? st.context k).or
        (lastVal? (structFixed st iso level messages) k) := by
  unfold createStructuredLog
  have hbase : (buildObj ([] : List (String × SVal))
      (structFixed st iso level messages ++ st.context)).lookup k =
      (lastVal? st.context k).or (lastVal? (structFixed st iso level messages) k) := by
    rw [buildObj_lookup, lastVal?_append]
    cases lastVal? st.context k <;>
      cases lastVal? (structFixed st iso level messages) k <;>
      simp [Option.or, List.lookup]
  by_cases hkg : k = "group"
  · subst hkg
    by_cases hg : 0 < st.groupLevel
    · simp [hg, objSet_lookup]
    · by_cases he : 0 < (errsOf messages).length <;> simp [hg, he, objSet_lookup, hbase]
  · by_cases hke : k = "errors"
    · subst hke
      by_cases he : 0 < (errsOf messages).length <;> by_cases hg : 0 < st.groupLevel <;>
        simp [hg, he, hkg, objSet_lookup, hbase]
    · by_cases hg : 0 < st.groupLevel <;> by_cases he : 0 < (errsOf messages).length <;>
        simp [hg, he, hkg, hke, objSet_lookup, hbase]

/-- A logger whose timers map binds the label `x` to start time 0. -/
def stZeroTimer : LoggerState :=
  { baseState with timers := [("x", 0)] }

/-- A logger whose timers map binds the label `x` to start time 500. -/
def stT500 : LoggerState :=
  { baseState with timers := [("x", 500)] }

/-- C9: a label whose recorded start time is exactly 0 is treated as
missing by both `timeEnd` and `timeLog` — the warning is emitted via the
warn channel and the state (timers map included) is left unchanged. -/
theorem timer_zero_start_treated_missing :
    (∀ (st : LoggerState) (amb : Ambient) (label : String),
      st.timers.lookup label = some 0 →
        step st amb (.timeEnd label) =
          (st, logDispatch st amb .warn [.prim (timerMissingMsg label)]))
    ∧ (∀ (st : LoggerState) (amb : Ambient) (label : String) (messages : List JsVal),
      st.timers.lookup label = some 0 →
        step st amb (.timeLog label messages) =
          (st, logDispatch st amb .warn [.prim (timerMissingMsg label)])) := by
  constructor
  · intro st amb label h
    simp [step, h]
  · intro st amb label messages h
    simp [step, h]

/-- C9 witness: the zero-start state evaluated at the concrete label. -/
theorem timer_zero_start_witness :
    stZeroTimer.timers.lookup "x" = some 0
    ∧ step stZeroTimer amb0 (.timeEnd "x") =
        (stZeroTimer, logDispatch stZeroTimer amb0 .warn [.prim (timerMissingMsg "x")])
    ∧ step stZeroTimer amb0 (.timeLog "x" []) =
        (stZeroTimer, logDispatch stZeroTimer amb0 .warn [.prim (timerMissingMsg "x")]) :=
  ⟨rfl, timer_zero_start_treated_missing.1 stZeroTimer amb0 "x" rfl,
    timer_zero_start_treated_missing.2 stZeroTimer amb0 "x" [] rfl⟩

/-- C8 counterexample: the label `x` is present in the timers map (bound to
start time 0), yet `timeEnd` does not remove it and performs the
missing-timer warning call — on the default console logger the emitted
line is the warning text, not an info timing line. -/
theorem timeEnd_present_label_warned :
    stZeroTimer.timers.lookup "x" = some 0
    ∧ (step stZeroTimer amb0 (.timeEnd "x")).1.timers.lookup "x" = some 0
    ∧ (step stZeroTimer amb0 (.timeEnd "x")).2 =
        [.log "\x1b[34m[0.000s]\x1b[0m \x1b[33m⚠\x1b[0m Timer 'x' does not exist"] :=
  ⟨rfl, rfl, rfl⟩

/-- C8 (amended): on a label present with a NONZERO start time, `timeEnd`
computes the elapsed milliseconds, removes the label and performs an info
call with the line `<label>: <ms>ms`, while `timeLog` performs the same
info call followed by the extra values without removing the label; on a
label absent from the map — or present with start time exactly 0 — both
leave the timers map unchanged and perform a warn call with
`Timer '<label>' does not exist`. -/
theorem timers_spec :
    (∀ (st : LoggerState) (amb : Ambient) (label : String) (t : Int),
      st.timers.lookup label = some t → t ≠ 0 →
        step st amb (.timeEnd label) =
          ({ st with timers := st.timers.filter fun p => p.1 ≠ label },
           logDispatch st amb .info [.prim (timerHitMsg label (amb.nowMs - t))]))
    ∧ (∀ (st : LoggerState) (amb : Ambient) (label : String) (t : Int)
        (messages : List JsVal),
      st.timers.lookup label = some t → t ≠ 0 →
        step st amb (.timeLog label messages) =
          (st, logDispatch st amb .info
            (.prim (timerHitMsg label (amb.nowMs - t)) :: messages)))
    ∧ (∀ (st : LoggerState) (amb : Ambient) (label : String),
      st.timers.lookup label = none →
        step st amb (.timeEnd label) =
          (st, logDispatch st amb .warn [.prim (timerMissingMsg label)]))
    ∧ (∀ (st : LoggerState) (amb : Ambient) (label : String) (messages : List JsVal),
      st.timers.lookup label = none →
        step st amb (.timeLog label messages) =
          (st, logDispatch st amb .warn [.prim (timerMissingMsg label)]))
    ∧ (∀ (st : LoggerState) (amb : Ambient) (label : String),
      st.timers.lookup label = some 0 →
        step st amb (.timeEnd label) =
          (st, logDispatch st amb .warn [.prim (timerMissingMsg label)])) := by
  refine ⟨?_, ?_, ?_, ?_, ?_⟩
  · intro st amb label t h ht
    simp [step, h, ht]
  · intro st amb label t messages h ht
    simp [step, h, ht]
  · intro st amb label h
    simp [step, h]
  · intro st amb label messages h
    simp [step, h]
  · intro st amb label h
    simp [step, h]

/-- C8 witness: a 500 ms timer ended at 1000 ms, and a missing label. -/
theorem timers_spec_witness :
    stT500.timers.lookup "x" = some 500
    ∧ (500 : Int) ≠ 0
    ∧ step stT500 amb0 (.timeEnd "x") =
        ({ stT500 with timers := stT500.timers.filter fun p => p.1 ≠ "x" },
         logDispatch stT500 amb0 .info [.prim (timerHitMsg "x" (amb0.nowMs - 500))])
    ∧ baseState.timers.lookup "y" = none
    ∧ step baseState amb0 (.timeEnd "y") =
        (baseState, logDispatch baseState amb0 .warn [.prim (timerMissingMsg "y")]) :=
  ⟨rfl, by decide, timers_spec.1 stT500 amb0 "x" 500 rfl (by decide), rfl,
    timers_spec.2.2.1 baseState amb0 "y" rfl⟩

/-- A default logger forced onto the web platform. -/
def stWeb : LoggerState :=
  { baseState with platform := .web }

/-- A default logger with structured output switched on. -/
def stStruct : LoggerState :=
  { baseState with structured := true }

/-- A default logger forced onto the lambda platform. -/
def stLambda : LoggerState :=
  { baseState with platform := .lambda }

/-- The timestamp decoration of a non-structured line:
`this.timeStampEnabled ? \x5b...s\x5d : ""` (src/index.ts:316). -/
def tsStr (st : LoggerState) (amb : Ambient) : String :=
  if st.timeStampEnabled then "[" ++ amb.elapsedStr ++ "s]" else ""

/-- The colorized timestamp decoration of a console-platform line
(src/index.ts:361,373). -/
def consoleDeco (st : LoggerState) (amb : Ambient) : String :=
  if tsStr st amb ≠ "" then "\x1b[34m" ++ tsStr st amb ++ "\x1b[0m " else ""

/-- C10: group and groupCollapsed emit their header with the group depth
from BEFORE the increment — in structured mode a header at depth 0 carries
no group field, and on each non-structured platform (web, console, lambda)
the header indent is two spaces per pre-increment depth level — while the
incremented depth shows up only in subsequent calls. -/
theorem group_header_preincrement :
    (∀ (st : LoggerState) (amb : Ambient) (messages : List JsVal),
      structuredActive st = true → st.groupLevel = 0 → st.context.lookup "group" = none →
        (step st amb (.group messages)).2 =
          [.logJson (createStructuredLog st amb.isoNow .group messages)]
        ∧ (createStructuredLog st amb.isoNow .group messages).lookup "group" = none)
    ∧ (∀ (st : LoggerState) (amb : Ambient) (messages : List JsVal),
      structuredActive st = true → st.groupLevel = 0 → st.context.lookup "group" = none →
        (step st amb (.groupCollapsed messages)).2 =
          [.logJson (createStructuredLog st amb.isoNow .groupCollapsed messages)]
        ∧ (createStructuredLog st amb.isoNow .groupCollapsed messages).lookup "group" = none)
    ∧ (∀ (st : LoggerState) (amb : Ambient) (messages : List JsVal),
      structuredActive st = false → st.platform = .web →
        (step st amb (.group messages)).2 =
          [.logStyled ("%c" ++ strRepeat "  " st.groupLevel.toNat ++ prefixFor st .group
              ++ formatMessages messages) ((st.styles .web).lookup "group")])
    ∧ (∀ (st : LoggerState) (amb : Ambient) (messages : List JsVal),
      structuredActive st = false → st.platform = .web →
        (step st amb (.groupCollapsed messages)).2 =
          [.logStyled ("%c" ++ strRepeat "  " st.groupLevel.toNat
              ++ prefixFor st .groupCollapsed
              ++ formatMessages messages) ((st.styles .web).lookup "groupCollapsed")])
    ∧ (∀ (st : LoggerState) (amb : Ambient) (messages : List JsVal),
        (step st amb (.group messages)).1.groupLevel = st.groupLevel + 1
        ∧ (step st amb (.groupCollapsed messages)).1.groupLevel = st.groupLevel + 1)
    ∧ (∀ (st : LoggerState) (amb : Ambient) (messages messages' : List JsVal),
      structuredActive st = false → st.platform = .web →
      shouldLog st.minLogLevel .info = true →
        (step (step st amb (.group messages)).1 amb (.info messages')).2 =
          [.logStyled ("%c" ++ strRepeat "  " (st.groupLevel + 1).toNat
              ++ prefixFor st .info ++ formatMessages messages')
            ((st.styles .web).lookup "info")])
    ∧ (∀ (st : LoggerState) (amb : Ambient) (messages : List JsVal),
      structuredActive st = false → st.platform = .console →
        (step st amb (.group messages)).2 =
          [.log (consoleDeco st amb ++ styleText st .console .group ++ " "
              ++ strRepeat "  " st.groupLevel.toNat ++ prefixFor st .group
              ++ formatMessages messages)])
    ∧ (∀ (st : LoggerState) (amb : Ambient) (messages : List JsVal),
      structuredActive st = false → st.platform = .console →
        (step st amb (.groupCollapsed messages)).2 =
          [.log (consoleDeco st amb ++ styleText st .console .groupCollapsed ++ " "
              ++ strRepeat "  " st.groupLevel.toNat ++ prefixFor st .groupCollapsed
              ++ formatMessages messages)])
    ∧ (∀ (st : LoggerState) (amb : Ambient) (messages : List JsVal),
      structuredActive st = false → st.platform = .lambda →
        (step st amb (.group messages)).2 =
          [.log (tsStr st amb ++ " " ++ styleText st .lambda .group ++ " "
              ++ strRepeat "  " st.groupLevel.toNat ++ prefixFor st .group
              ++ formatMessages messages)])
    ∧ (∀ (st : LoggerState) (amb : Ambient) (messages : List JsVal),
      structuredActive st = false → st.platform = .lambda →
        (step st amb (.groupCollapsed messages)).2 =
          [.log (tsStr st amb ++ " " ++ styleText st .lambda .groupCollapsed ++ " "
              ++ strRepeat "  " st.groupLevel.toNat ++ prefixFor st .groupCollapsed
              ++ formatMessages messages)])
    ∧ (∀ (st : LoggerState) (amb : Ambient) (messages messages' : List JsVal),
      structuredActive st = false → st.platform = .console →
      shouldLog st.minLogLevel .info = true →
        (step (step st amb (.group messages)).1 amb (.info messages')).2 =
          [.log (consoleDeco st amb ++ styleText st .console .info ++ " "
              ++ strRepeat "  " (st.groupLevel + 1).toNat ++ prefixFor st .info
              ++ formatMessages messages')])
    ∧ (∀ (st : LoggerState) (amb : Ambient) (messages messages' : List JsVal),
      structuredActive st = false → st.platform = .lambda →
      shouldLog st.minLogLevel .info = true →
        (step (step st amb (.group messages)).1 amb (.info messages')).2 =
          [.log (tsStr st amb ++ " " ++ styleText st .lambda .info ++ " "
              ++ strRepeat "  " (st.groupLevel + 1).toNat ++ prefixFor st .info
              ++ formatMessages messages')]) := by
  have hgrpnone : ∀ (st : LoggerState) (iso : String) (level : LogLevel)
      (messages : List JsVal), st.groupLevel = 0 → st.context.lookup "group" = none →
      (createStructuredLog st iso level messages).lookup "group" = none := by
    intro st iso level messages h0 hctx
    rw [createStructuredLog_lookup]
    have hc : lastVal? st.context "group" = none :=
      lastVal?_eq_none _ _ ((lookup_eq_none_iff st.context "group").mp hctx)
    have hf : lastVal? (structFixed st iso level messages) "group" = none :=
      lastVal?_structFixed_none st iso level messages "group" (by decide) (by decide)
        (by decide) (by decide) (by decide)
    simp [h0, hc, hf, Option.or]
  refine ⟨?_, ?_, ?_, ?_, ?_, ?_, ?_, ?_, ?_, ?_, ?_, ?_⟩
  · intro st amb messages h1 h0 hctx
    exact ⟨by simp [step, logDispatch, h1, shouldLog], hgrpnone st amb.isoNow _ messages h0 hctx⟩
  · intro st amb messages h1 h0 hctx
    exact ⟨by simp [step, logDispatch, h1, shouldLog], hgrpnone st amb.isoNow _ messages h0 hctx⟩
  · intro st amb messages h1 h2
    simp [step, logDispatch, h1, h2, shouldLog, levelStr]
  · intro st amb messages h1 h2
    simp [step, logDispatch, h1, h2, shouldLog, levelStr]
  · intro st amb messages
    exact ⟨rfl, rfl⟩
  · intro st amb messages messages' h1 h2 hs
    have hs' : priorityOf st.minLogLevel ≤ priorityOf .info := by
      simpa [shouldLog] using hs
    have h1' : st.structured = false := by
      simpa [structuredActive, h2] using h1
    simp [step, logDispatch, h1', h2, shouldLog, structuredActive, levelStr, prefixFor,
      not_lt.mpr hs']
  · intro st amb messages h1 h2
    simp [step, logDispatch, h1, h2, shouldLog, levelStr, tsStr, consoleDeco]
  · intro st amb messages h1 h2
    simp [step, logDispatch, h1, h2, shouldLog, levelStr, tsStr, consoleDeco]
  · intro st amb messages h1 h2
    simp [step, logDispatch, h1, h2, shouldLog, levelStr, tsStr]
  · intro st amb messages h1 h2
    simp [step, logDispatch, h1, h2, shouldLog, levelStr, tsStr]
  · intro st amb messages messages' h1 h2 hs
    have hs' : priorityOf st.minLogLevel ≤ priorityOf .info := by
      simpa [shouldLog] using hs
    have h1' : st.structured = false := by
      simpa [structuredActive, h2] using h1
    simp [step, logDispatch, h1', h2, shouldLog, structuredActive, levelStr, prefixFor,
      styleText, tsStr, consoleDeco, not_lt.mpr hs']
  · intro st amb messages messages' h1 h2 hs
    have hs' : priorityOf st.minLogLevel ≤ priorityOf .info := by
      simpa [shouldLog] using hs
    have h1' : st.structured = false := by
      simpa [structuredActive, h2] using h1
    simp [step, logDispatch, h1', h2, shouldLog, structuredActive, levelStr, prefixFor,
      styleText, tsStr, not_lt.mpr hs']

/-- C10 witness: the conjuncts evaluated on concrete structured, web,
console and lambda loggers at depth 0. -/
theorem group_header_preincrement_witness :
    structuredActive stStruct = true
    ∧ stStruct.groupLevel = 0
    ∧ stStruct.context.lookup "group" = none
    ∧ (createStructuredLog stStruct amb0.isoNow .group [.prim "hdr"]).lookup "group" = none
    ∧ structuredActive stWeb = false
    ∧ (step stWeb amb0 (.group [.prim "hdr"])).2 =
        [.logStyled ("%c" ++ strRepeat "  " stWeb.groupLevel.toNat ++ prefixFor stWeb .group
            ++ formatMessages [.prim "hdr"]) ((stWeb.styles .web).lookup "group")]
    ∧ (step (step stWeb amb0 (.group [.prim "hdr"])).1 amb0 (.info [.prim "body"])).2 =
        [.logStyled ("%c" ++ strRepeat "  " (stWeb.groupLevel + 1).toNat
            ++ prefixFor stWeb .info ++ formatMessages [.prim "body"])
          ((stWeb.styles .web).lookup "info")]
    ∧ structuredActive baseState = false
    ∧ (step baseState amb0 (.group [.prim "hdr"])).2 =
        [.log (consoleDeco baseState amb0 ++ styleText baseState .console .group ++ " "
            ++ strRepeat "  " baseState.groupLevel.toNat ++ prefixFor baseState .group
            ++ formatMessages [.prim "hdr"])]
    ∧ structuredActive stLambda = false
    ∧ (step stLambda amb0 (.group [.prim "hdr"])).2 =
        [.log (tsStr stLambda amb0 ++ " " ++ styleText stLambda .lambda .group ++ " "
            ++ strRepeat "  " stLambda.groupLevel.toNat ++ prefixFor stLambda .group
            ++ formatMessages [.prim "hdr"])]
    ∧ (step (step baseState amb0 (.group [.prim "hdr"])).1 amb0 (.info [.prim "body"])).2 =
        [.log (consoleDeco baseState amb0 ++ styleText baseState .console .info ++ " "
            ++ strRepeat "  " (baseState.groupLevel + 1).toNat ++ prefixFor baseState .info
            ++ formatMessages [.prim "body"])]
    ∧ (step (step stLambda amb0 (.group [.prim "hdr"])).1 amb0 (.info [.prim "body"])).2 =
        [.log (tsStr stLambda amb0 ++ " " ++ styleText stLambda .lambda .info ++ " "
            ++ strRepeat "  " (stLambda.groupLevel + 1).toNat ++ prefixFor stLambda .info
            ++ formatMessages [.prim "body"])] :=
  ⟨rfl, rfl, rfl,
    (group_header_preincrement.1 stStruct amb0 [.prim "hdr"] rfl rfl rfl).2,
    rfl,
    group_header_preincrement.2.2.1 stWeb amb0 [.prim "hdr"] rfl rfl,
    group_header_preincrement.2.2.2.2.2.1 stWeb amb0 [.prim "hdr"] [.prim "body"] rfl rfl rfl,
    rfl,
    group_header_preincrement.2.2.2.2.2.2.1 baseState amb0 [.prim "hdr"] rfl rfl,
    rfl,
    group_header_preincrement.2.2.2.2.2.2.2.2.1 stLambda amb0 [.prim "hdr"] rfl rfl,
    group_header_preincrement.2.2.2.2.2.2.2.2.2.2.1 baseState amb0 [.prim "hdr"]
      [.prim "body"] rfl rfl rfl,
    group_header_preincrement.2.2.2.2.2.2.2.2.2.2.2 stLambda amb0 [.prim "hdr"]
      [.prim "body"] rfl rfl rfl⟩

/-- With pairwise-distinct keys, membership determines the lookup. -/
theorem lookup_of_mem_nodup {κ α : Type} [DecidableEq κ] (es : List (κ × α)) (k : κ) (v : α)
    (hnd : (es.map Prod.fst).Nodup) (hmem : (k, v) ∈ es) : es.lookup k = some v := by
  induction es with
  | nil => simp at hmem
  | cons p es ih =>
    rw [List.map_cons] at hnd
    have hndc := List.nodup_cons.mp hnd
    rcases List.mem_cons.mp hmem with rfl | hmem'
    · simp [List.lookup]
    · have hk : ¬ k = p.1 := by
        intro hk
        exact hndc.1 (hk ▸ List.mem_map_of_mem Prod.fst hmem')
      simp [List.lookup, beq_eq_false_iff_ne.mpr hk, ih hndc.2 hmem']

/-- An Error value carrying a NON-enumerable own property `code`. -/
def eNonEnum : JsError :=
  { name := "Error", message := "boom", stack := some "trace",
    ownProps := [("code", false, SVal.num 42)] }

/-- An Error value with an enumerable custom `statusCode` property. -/
def eStatus : JsError :=
  { name := "HttpError", message := "bad gateway", stack := some "trace",
    ownProps := [("statusCode", true, SVal.num 502)] }

/-- C5 counterexample: `serializeError` walks `Object.getOwnPropertyNames`,
which also returns NON-enumerable own properties, so a non-enumerable
`code` property lands in the serialized record, while the claim's
enumerable-only serialization has no such entry. -/
theorem serializeError_includes_nonenumerable :
    (serializeError eNonEnum).lookup "code" = some (.num 42)
    ∧ (specSerializeError eNonEnum).lookup "code" = none :=
  ⟨rfl, rfl⟩

/-- C5 (amended): a structured call with Error arguments gets an `errors`
array with one serialized entry per Error in order; each entry carries the
error's name, message and stack, every other OWN property (enumerable or
not) under its own key, and nothing else. -/
theorem serializeError_spec :
    (∀ (st : LoggerState) (iso : String) (level : LogLevel) (messages : List JsVal),
      0 < (errsOf messages).length →
        (createStructuredLog st iso level messages).lookup "errors"
          = some (.arr ((errsOf messages).map fun e => .obj (serializeError e))))
    ∧ (∀ e : JsError, (serializeError e).lookup "name" = some (.str e.name))
    ∧ (∀ e : JsError, (serializeError e).lookup "message" = some (.str e.message))
    ∧ (∀ e : JsError, (serializeError e).lookup "stack" = some (optStackVal e.stack))
    ∧ (∀ (e : JsError) (k : String) (en : Bool) (v : SVal),
        (e.ownProps.map Prod.fst).Nodup → (k, en, v) ∈ e.ownProps →
        ¬(k = "name" ∨ k = "message" ∨ k = "stack") →
        (serializeError e).lookup k = some v)
    ∧ (∀ (e : JsError) (k : String),
        ((serializeError e).lookup k).isSome = true →
        k = "name" ∨ k = "message" ∨ k = "stack" ∨ k ∈ e.ownProps.map Prod.fst) := by
  have hbase : ∀ (e : JsError) (k : String),
      (serializeError e).lookup k =
        (lastVal? ((e.ownProps.filter fun p =>
            ¬(p.1 = "name" ∨ p.1 = "message" ∨ p.1 = "stack")).map fun p => (p.1, p.2.2)) k).or
          (List.lookup k
            [("name", SVal.str e.name), ("message", SVal.str e.message),
             ("stack", optStackVal e.stack)]) := by
    intro e k
    rw [serializeError, buildObj_lookup]
  have hextra_none : ∀ (e : JsError) (k : String),
      (k = "name" ∨ k = "message" ∨ k = "stack") →
      lastVal? ((e.ownProps.filter fun p =>
          ¬(p.1 = "name" ∨ p.1 = "message" ∨ p.1 = "stack")).map fun p => (p.1, p.2.2)) k
        = none := by
    intro e k hk
    apply lastVal?_eq_none
    intro q hq
    rcases List.mem_map.mp hq with ⟨r, hr, rfl⟩
    have hpred := List.of_mem_filter hr
    simp only [decide_not, Bool.not_eq_true', decide_eq_false_iff_not] at hpred
    intro hqk
    exact hpred (hqk ▸ hk)
  refine ⟨?_, ?_, ?_, ?_, ?_, ?_⟩
  · intro st iso level messages he
    rw [createStructuredLog_lookup]
    simp [he]
  · intro e
    rw [hbase, hextra_none e "name" (Or.inl rfl)]
    simp [List.lookup, Option.or]
  · intro e
    rw [hbase, hextra_none e "message" (Or.inr (Or.inl rfl))]
    simp [List.lookup, Option.or]
  · intro e
    rw [hbase, hextra_none e "stack" (Or.inr (Or.inr rfl))]
    simp [List.lookup, Option.or]
  · intro e k en v hnd hmem hk
    rw [hbase]
    have hmemf : (k, en, v) ∈ e.ownProps.filter fun p =>
        ¬(p.1 = "name" ∨ p.1 = "message" ∨ p.1 = "stack") :=
      List.mem_filter.mpr ⟨hmem, by simpa using hk⟩
    have hmemm : (k, v) ∈ (e.ownProps.filter fun p =>
        ¬(p.1 = "name" ∨ p.1 = "message" ∨ p.1 = "stack")).map fun p => (p.1, p.2.2) :=
      List.mem_map.mpr ⟨(k, en, v), hmemf, rfl⟩
    have hndm : (((e.ownProps.filter fun p =>
        ¬(p.1 = "name" ∨ p.1 = "message" ∨ p.1 = "stack")).map
          fun p => (p.1, p.2.2)).map Prod.fst).Nodup := by
      have hsub : ((e.ownProps.filter fun p =>
          ¬(p.1 = "name" ∨ p.1 = "message" ∨ p.1 = "stack")).map Prod.fst).Sublist
            (e.ownProps.map Prod.fst) :=
        (List.filter_sublist _).map Prod.fst
      have : ((e.ownProps.filter fun p =>
          ¬(p.1 = "name" ∨ p.1 = "message" ∨ p.1 = "stack")).map Prod.fst).Nodup :=
        hnd.sublist hsub
      simpa [List.map_map, Function.comp] using this
    have hlook := lookup_of_mem_nodup _ k v hndm hmemm
    rw [lastVal?_of_nodup _ k v hndm hlook]
    simp [Option.or]
  · intro e k h
    by_contra hcon
    push_neg at hcon
    obtain ⟨h1, h2, h3, h4⟩ := hcon
    have hextra : lastVal? ((e.ownProps.filter fun p =>
        ¬(p.1 = "name" ∨ p.1 = "message" ∨ p.1 = "stack")).map fun p => (p.1, p.2.2)) k
        = none := by
      apply lastVal?_eq_none
      intro q hq
      rcases List.mem_map.mp hq with ⟨r, hr, rfl⟩
      intro hqk
      exact h4 (hqk ▸ List.mem_map_of_mem Prod.fst (List.mem_of_mem_filter hr))
    rw [hbase, hextra] at h
    simp [List.lookup, beq_eq_false_iff_ne.mpr h1, beq_eq_false_iff_ne.mpr h2,
      beq_eq_false_iff_ne.mpr h3, Option.or] at h

/-- C5 witness: the amended statement evaluated on a structured error call
carrying a custom `statusCode` property. -/
theorem serializeError_spec_witness :
    0 < (errsOf [.prim "oops", .err eStatus]).length
    ∧ (createStructuredLog stStruct "t" .error [.prim "oops", .err eStatus]).lookup "errors"
        = some (.arr [.obj (serializeError eStatus)])
    ∧ (serializeError eStatus).lookup "name" = some (.str "HttpError")
    ∧ (serializeError eStatus).lookup "statusCode" = some (.num 502) :=
  ⟨by decide,
    serializeError_spec.1 stStruct "t" .error [.prim "oops", .err eStatus] (by decide),
    serializeError_spec.2.1 eStatus,
    serializeError_spec.2.2.2.2.1 eStatus "statusCode" true (.num 502) (by simp [eStatus])
      (by simp [eStatus]) (by decide)⟩

/-- A structured logger whose persistent context binds the key `errors`. -/
def stCtxErr : LoggerState :=
  { baseState with structured := true, context := [("errors", SVal.str "x")] }

/-- C3 counterexample: a context entry under the key `errors` does not
survive into the assembled record when Error arguments are present — the
errors-array assignment runs after the context spread and overwrites it,
so not every entry of the context map is contained in the record. -/
theorem structured_context_errors_overwritten :
    stCtxErr.context.lookup "errors" = some (.str "x")
    ∧ (createStructuredLog stCtxErr "t" .error [.err eStatus]).lookup "errors"
        = some (.arr [.obj (serializeError eStatus)])
    ∧ SVal.arr [.obj (serializeError eStatus)] ≠ SVal.str "x" :=
  ⟨rfl, rfl, fun h => nomatch h⟩

/-- C3 (amended): in structured mode each filtered call emits the record of
`createStructuredLog`, and that record carries the ISO timestamp, the
uppercased level, the formatted non-Error message, the service and
correlation fields exactly when those options are truthy, and every context
entry — except that a context key equal to a fixed field name overrides
that field, and the later `errors` and `group` assignments overwrite
context entries under those two keys when they fire. -/
theorem structured_record_fields :
    (∀ (st : LoggerState) (amb : Ambient) (level : LogLevel) (messages : List JsVal),
      structuredActive st = true → shouldLog st.minLogLevel level = true →
        logDispatch st amb level messages =
          [.logJson (createStructuredLog st amb.isoNow level messages)])
    ∧ (∀ (st : LoggerState) (iso : String) (level : LogLevel) (messages : List JsVal),
      st.context.lookup "timestamp" = none →
        (createStructuredLog st iso level messages).lookup "timestamp" = some (.str iso))
    ∧ (∀ (st : LoggerState) (iso : String) (level : LogLevel) (messages : List JsVal),
      st.context.lookup "level" = none →
        (createStructuredLog st iso level messages).lookup "level"
          = some (.str (jsToUpperCase (levelStr level))))
    ∧ (∀ (st : LoggerState) (iso : String) (level : LogLevel) (messages : List JsVal),
      st.context.lookup "message" = none →
        (createStructuredLog st iso level messages).lookup "message"
          = some (.str (formatMessages (nonErrs messages))))
    ∧ (∀ (st : LoggerState) (iso : String) (level : LogLevel) (messages : List JsVal),
      st.context.lookup "service" = none →
        (createStructuredLog st iso level messages).lookup "service"
          = (if strTruthy st.serviceName then some (.str (st.serviceName.getD "")) else none))
    ∧ (∀ (st : LoggerState) (iso : String) (level : LogLevel) (messages : List JsVal),
      st.context.lookup "correlationId" = none →
        (createStructuredLog st iso level messages).lookup "correlationId"
          = (if strTruthy st.correlationId then some (.str (st.correlationId.getD ""))
             else none))
    ∧ (∀ (st : LoggerState) (iso : String) (level : LogLevel) (messages : List JsVal),
      (st.context.map Prod.fst).Nodup →
        ∀ (k : String) (v : SVal), st.context.lookup k = some v →
          (k = "errors" → errsOf messages = []) →
          (k = "group" → st.groupLevel ≤ 0) →
          (createStructuredLog st iso level messages).lookup k = some v) := by
  have hmsg : ∀ messages : List JsVal,
      (if (nonErrs messages).length > 0 then formatMessages (nonErrs messages) else "")
        = formatMessages (nonErrs messages) := by
    intro messages
    cases h : nonErrs messages with
    | nil => simp [formatMessages, String.intercalate]
    | cons a l => simp
  refine ⟨?_, ?_, ?_, ?_, ?_, ?_, ?_⟩
  · intro st amb level messages h1 h2
    simp [logDispatch, h1, h2]
  · intro st iso level messages h
    rw [createStructuredLog_lookup]
    have hc : lastVal? st.context "timestamp" = none :=
      lastVal?_eq_none _ _ ((lookup_eq_none_iff _ _).mp h)
    have hng : ¬("timestamp" = "group" ∧ 0 < st.groupLevel) :=
      fun hcn => absurd hcn.1 (by decide)
    have hne : ¬("timestamp" = "errors" ∧ 0 < (errsOf messages).length) :=
      fun hcn => absurd hcn.1 (by decide)
    simp [hng, hne, hc, (lastVal?_structFixed st iso level messages).1, Option.or]
  · intro st iso level messages h
    rw [createStructuredLog_lookup]
    have hc : lastVal? st.context "level" = none :=
      lastVal?_eq_none _ _ ((lookup_eq_none_iff _ _).mp h)
    have hng : ¬("level" = "group" ∧ 0 < st.groupLevel) :=
      fun hcn => absurd hcn.1 (by decide)
    have hne : ¬("level" = "errors" ∧ 0 < (errsOf messages).length) :=
      fun hcn => absurd hcn.1 (by decide)
    simp [hng, hne, hc, (lastVal?_structFixed st iso level messages).2.1, Option.or]
  · intro st iso level messages h
    rw [createStructuredLog_lookup]
    have hc : lastVal? st.context "message" = none :=
      lastVal?_eq_none _ _ ((lookup_eq_none_iff _ _).mp h)
    have hng : ¬("message" = "group" ∧ 0 < st.groupLevel) :=
      fun hcn => absurd hcn.1 (by decide)
    have hne : ¬("message" = "errors" ∧ 0 < (errsOf messages).length) :=
      fun hcn => absurd hcn.1 (by decide)
    have hf := (lastVal?_structFixed st iso level messages).2.2.1
    rw [hmsg messages] at hf
    simp [hng, hne, hc, hf, Option.or]
  · intro st iso level messages h
    rw [createStructuredLog_lookup]
    have hc : lastVal? st.context "service" = none :=
      lastVal?_eq_none _ _ ((lookup_eq_none_iff _ _).mp h)
    have hng : ¬("service" = "group" ∧ 0 < st.groupLevel) :=
      fun hcn => absurd hcn.1 (by decide)
    have hne : ¬("service" = "errors" ∧ 0 < (errsOf messages).length) :=
      fun hcn => absurd hcn.1 (by decide)
    have hf := (lastVal?_structFixed st iso level messages).2.2.2.1
    by_cases hs : strTruthy st.serviceName <;>
      simp [hng, hne, hc, hf, hs, Option.or]
  · intro st iso level messages h
    rw [createStructuredLog_lookup]
    have hc : lastVal? st.context "correlationId" = none :=
      lastVal?_eq_none _ _ ((lookup_eq_none_iff _ _).mp h)
    have hng : ¬("correlationId" = "group" ∧ 0 < st.groupLevel) :=
      fun hcn => absurd hcn.1 (by decide)
    have hne : ¬("correlationId" = "errors" ∧ 0 < (errsOf messages).length) :=
      fun hcn => absurd hcn.1 (by decide)
    have hf := (lastVal?_structFixed st iso level messages).2.2.2.2
    by_cases hs : strTruthy st.correlationId <;>
      simp [hng, hne, hc, hf, hs, Option.or]
  · intro st iso level messages hnd k v hv hke hkg
    rw [createStructuredLog_lookup]
    have hlv : lastVal? st.context k = some v := lastVal?_of_nodup _ _ _ hnd hv
    have hng : ¬(k = "group" ∧ 0 < st.groupLevel) := by
      rintro ⟨rfl, hpos⟩
      exact absurd hpos (by have := hkg rfl; omega)
    have hne : ¬(k = "errors" ∧ 0 < (errsOf messages).length) := by
      rintro ⟨rfl, hpos⟩
      rw [hke rfl] at hpos
      simp at hpos
    simp [hng, hne, hlv, Option.or]

/-- A structured logger with service, correlation and context configured. -/
def stFull : LoggerState :=
  { baseState with
    structured := true
    serviceName := some "svc"
    correlationId := some "cid"
    context := [("requestId", SVal.str "r1")] }

/-- C3 witness: the amended statement evaluated on a fully-configured
structured logger and an info call. -/
theorem structured_record_fields_witness :
    structuredActive stFull = true
    ∧ shouldLog stFull.minLogLevel .info = true
    ∧ logDispatch stFull amb0 .info [.prim "hello"] =
        [.logJson (createStructuredLog stFull amb0.isoNow .info [.prim "hello"])]
    ∧ stFull.context.lookup "timestamp" = none
    ∧ (createStructuredLog stFull "t0" .info [.prim "hello"]).lookup "timestamp"
        = some (.str "t0")
    ∧ (createStructuredLog stFull "t0" .info [.prim "hello"]).lookup "service"
        = (if strTruthy stFull.serviceName then some (.str (stFull.serviceName.getD ""))
           else none)
    ∧ (createStructuredLog stFull "t0" .info [.prim "hello"]).lookup "requestId"
        = some (.str "r1") :=
  ⟨rfl, rfl,
    structured_record_fields.1 stFull amb0 .info [.prim "hello"] rfl rfl,
    rfl,
    structured_record_fields.2.1 stFull "t0" .info [.prim "hello"] rfl,
    structured_record_fields.2.2.2.2.1 stFull "t0" .info [.prim "hello"] rfl,
    structured_record_fields.2.2.2.2.2.2 stFull "t0" .info [.prim "hello"] (by decide)
      "requestId" (.str "r1") rfl (fun h => nomatch h) (fun h => nomatch h)⟩

/-- Total length of a flat map producing two calls per element. -/
theorem sum_map_length_two {α β : Type} (l : List α) (f g : α → β) :
    (List.map (List.length ∘ fun e => [f e, g e]) l).sum = 2 * l.length := by
  induction l with
  | nil => simp
  | cons a l ih => simp [ih]; omega

/-- A default logger whose minimum level is error. -/
def stMinError : LoggerState :=
  { baseState with minLogLevel := .error }

/-- C2 counterexample: on the lambda platform an unfiltered error call with
one non-Error and one Error argument performs three output calls (the
message line, the decorated prefix line, and the raw error), not two. -/
theorem error_call_three_outputs :
    shouldLog stLambda.minLogLevel .error = true
    ∧ (logDispatch stLambda amb0 .error [.prim "a", .err eStatus]).length = 3 :=
  ⟨rfl, rfl⟩

/-- C2 (amended): a filtered call performs zero output calls; an unfiltered
call performs exactly one when structured mode is active, and exactly one
when it is not an error call carrying Error arguments; an unfiltered
non-structured error call with E ≥ 1 Error arguments performs one call for
the non-Error line when a non-Error argument is present (zero otherwise)
plus E calls on web and console and 2·E calls on lambda. -/
theorem log_call_counts :
    (∀ (st : LoggerState) (amb : Ambient) (level : LogLevel) (messages : List JsVal),
      shouldLog st.minLogLevel level = false →
        logDispatch st amb level messages = [])
    ∧ (∀ (st : LoggerState) (amb : Ambient) (level : LogLevel) (messages : List JsVal),
      shouldLog st.minLogLevel level = true → structuredActive st = true →
        (logDispatch st amb level messages).length = 1)
    ∧ (∀ (st : LoggerState) (amb : Ambient) (level : LogLevel) (messages : List JsVal),
      shouldLog st.minLogLevel level = true → structuredActive st = false →
      ¬(level = .error ∧ messages.any isErrVal) →
        (logDispatch st amb level messages).length = 1)
    ∧ (∀ (st : LoggerState) (amb : Ambient) (level : LogLevel) (messages : List JsVal),
      shouldLog st.minLogLevel level = true → structuredActive st = false →
      level = .error → messages.any isErrVal = true →
        (logDispatch st amb level messages).length =
          (if 0 < (nonErrs messages).length then 1 else 0) +
          (match st.platform with
           | .web => (errsOf messages).length
           | .console => (errsOf messages).length
           | .lambda => 2 * (errsOf messages).length
           | .ecs => 0)) := by
  refine ⟨?_, ?_, ?_, ?_⟩
  · intro st amb level messages h
    simp [logDispatch, h]
  · intro st amb level messages h1 h2
    simp [logDispatch, h1, h2]
  · intro st amb level messages h1 h2 h3
    have hecs : st.platform ≠ .ecs := by
      intro hp
      simp [structuredActive, hp] at h2
    simp only [List.any_eq_true] at h3
    cases hp : st.platform with
    | ecs => exact absurd hp hecs
    | web => simp [logDispatch, h1, h2, hp, h3]
    | console => simp [logDispatch, h1, h2, hp, h3]
    | lambda => simp [logDispatch, h1, h2, hp, h3]
  · intro st amb level messages h1 h2 h3 h4
    subst h3
    have hecs : st.platform ≠ .ecs := by
      intro hp
      simp [structuredActive, hp] at h2
    simp only [List.any_eq_true] at h4
    cases hp : st.platform with
    | ecs => exact absurd hp hecs
    | web =>
      by_cases hn : 0 < (nonErrs messages).length <;>
        simp [logDispatch, h1, h2, hp, h4, hn] <;> omega
    | console =>
      by_cases hn : 0 < (nonErrs messages).length <;>
        simp [logDispatch, h1, h2, hp, h4, hn] <;> omega
    | lambda =>
      by_cases hn : 0 < (nonErrs messages).length <;>
        simp [logDispatch, h1, h2, hp, h4, hn, sum_map_length_two] <;> omega

/-- C2 witness: the four amended conjuncts evaluated on concrete loggers:
a filtered debug call, a structured info call, a plain console info call,
and a lambda error call carrying one Error. -/
theorem log_call_counts_witness :
    shouldLog stMinError.minLogLevel .debug = false
    ∧ logDispatch stMinError amb0 .debug [.prim "m"] = []
    ∧ shouldLog stStruct.minLogLevel .info = true
    ∧ structuredActive stStruct = true
    ∧ (logDispatch stStruct amb0 .info [.prim "m"]).length = 1
    ∧ structuredActive baseState = false
    ∧ (logDispatch baseState amb0 .info [.prim "m"]).length = 1
    ∧ (logDispatch stLambda amb0 .error [.prim "a", .err eStatus]).length =
        (if 0 < (nonErrs [.prim "a", .err eStatus]).length then 1 else 0) +
        (match stLambda.platform with
         | .web => (errsOf [.prim "a", .err eStatus]).length
         | .console => (errsOf [.prim "a", .err eStatus]).length
         | .lambda => 2 * (errsOf [.prim "a", .err eStatus]).length
         | .ecs => 0) :=
  ⟨rfl, log_call_counts.1 stMinError amb0 .debug [.prim "m"] rfl,
    rfl, rfl, log_call_counts.2.1 stStruct amb0 .info [.prim "m"] rfl rfl,
    rfl,
    log_call_counts.2.2.1 baseState amb0 .info [.prim "m"] rfl rfl
      (fun h => nomatch h.1),
    log_call_counts.2.2.2 stLambda amb0 .error [.prim "a", .err eStatus] rfl rfl rfl rfl⟩

end LovelyLogs
